import Mathlib

/-
Verification development for the command/event orchestration core in
src/assets/ddd_workshop.py (accounts, follow edges, blocking, event bus,
policies, read-model projector).

The Python source is shallowly embedded: mutable objects become explicit
state passing, dicts become insertion-ordered association lists, Python
sets become duplicate-free lists observed through membership, and the
synchronous event-bus dispatch becomes an explicit trace of published
events carried in the application state.
-/

namespace DDDWorkshop

/-! ## Python dict and set primitives -/

/-- Python dict assignment: replace the value of an existing key in place,
otherwise append the new binding at the end (insertion order). -/
def dictSet {α : Type} : List (String × α) → String → α → List (String × α)
  | [], k, v => [(k, v)]
  | (k', v') :: t, k, v =>
      if k' = k then (k', v) :: t else (k', v') :: dictSet t k v

/-- Python dict.get: the value bound to the first (hence only) occurrence
of the key, if any. -/
def dictGet {α : Type} : List (String × α) → String → Option α
  | [], _ => none
  | (k', v') :: t, k => if k' = k then some v' else dictGet t k

/-- Reading a key of a collections.defaultdict(set): the bound set, or the
empty set when the key is absent.  (The CPython side effect of inserting
the empty set on read is unobservable through this accessor and is
therefore not modelled.) -/
def ddGet (m : List (String × List String)) (k : String) : List String :=
  (dictGet m k).getD []

/-- Updating one set of a defaultdict(set) in place. -/
def ddUpdate (m : List (String × List String)) (k : String)
    (f : List String → List String) : List (String × List String) :=
  dictSet m k (f (ddGet m k))

/-- Python set.add: a no-op when the element is present. -/
def setAdd (s : List String) (x : String) : List String :=
  if x ∈ s then s else s ++ [x]

/-- Python set.discard: removes the element if present, never errors. -/
def setDiscard (s : List String) (x : String) : List String :=
  s.filter (fun y => y ≠ x)

/-! ## Value objects -/

/-- Python re module character class backslash-s on str patterns
(Unicode mode): the 29 code points CPython's Unicode whitespace predicate
accepts — the six ASCII whitespace characters, the information separators
U+001C to U+001F, next line U+0085, no-break space U+00A0, ogham space
mark U+1680, the U+2000 to U+200A spaces, the line and paragraph
separators U+2028 and U+2029, narrow no-break space U+202F, medium
mathematical space U+205F, and ideographic space U+3000. -/
def pyIsSpace (c : Char) : Bool :=
  c = ' ' || c = '\t' || c = '\n' || c = '\r' || c = '\x0b' || c = '\x0c' ||
  c = '\x1c' || c = '\x1d' || c = '\x1e' || c = '\x1f' ||
  c = '\x85' || c = '\xa0' || c = '\u1680' ||
  c = '\u2000' || c = '\u2001' || c = '\u2002' || c = '\u2003' ||
  c = '\u2004' || c = '\u2005' || c = '\u2006' || c = '\u2007' ||
  c = '\u2008' || c = '\u2009' || c = '\u200a' ||
  c = '\u2028' || c = '\u2029' || c = '\u202f' || c = '\u205f' || c = '\u3000'

/-- A character admitted by the bracket class excluding at-sign and
whitespace, used in the email pattern of Email.__post_init__. -/
def okChar (c : Char) : Bool :=
  !(c = '@') && !(pyIsSpace c)

/-- Full match of the email pattern body (nonempty run of okChar, an
at-sign, then a domain that is all okChar and has a dot at an interior
position), as in the regex of Email.__post_init__. -/
def emailCore (l : List Char) : Bool :=
  let lp := l.takeWhile okChar
  match l.dropWhile okChar with
  | c :: d =>
      decide (c = '@') && !lp.isEmpty && d.all okChar &&
        decide ('.' ∈ (d.drop 1).dropLast)
  | [] => false

/-- A character of the class [a-zA-Z0-9_] used by Username.__post_init__. -/
def wordChar (c : Char) : Bool :=
  c.isAlpha || c.isDigit || c = '_'

/-- Full match of the username pattern body: 3 to 32 word characters. -/
def usernameCore (l : List Char) : Bool :=
  l.all wordChar && 3 ≤ l.length && l.length ≤ 32

/-- Python re.match of a pattern anchored with caret and dollar: the
dollar also matches just before a single newline at the very end of the
string, so the pattern body may match the string minus a trailing
newline. -/
def pyFullMatch (core : List Char → Bool) (s : String) : Bool :=
  core s.data ||
    (decide (s.data.getLast? = some '\n') && core s.data.dropLast)

/-- The validation performed by Email.__post_init__. -/
def emailValid (s : String) : Bool := pyFullMatch emailCore s

/-- The validation performed by Username.__post_init__. -/
def usernameValid (s : String) : Bool := pyFullMatch usernameCore s

/-- Email value object (validated at construction via mkEmail). -/
structure Email where
  value : String
deriving DecidableEq

/-- Username value object (validated at construction via mkUsername). -/
structure Username where
  value : String
deriving DecidableEq

/-- AccountId value object. -/
structure AccountId where
  value : String
deriving DecidableEq

/-- Email construction: Email.__post_init__ raises ValueError when the
pattern does not match. -/
def mkEmail (s : String) : Except String Email :=
  if emailValid s then .ok ⟨s⟩ else .error "Invalid email"

/-- Username construction: Username.__post_init__ raises ValueError when
the pattern does not match. -/
def mkUsername (s : String) : Except String Username :=
  if usernameValid s then .ok ⟨s⟩ else .error "Invalid username"

/-- Modelled from the source's AccountId.new, which draws a fresh random
uuid4; randomness is not embeddable, so the uuid source is modelled as a
deterministic counter carried in the application state.  Freshness of
minted ids along a run is a consequence of the counter increasing. -/
def mintId (n : Nat) : String := "uuid-" ++ toString n

/-! ## Domain events and commands -/

inductive Event where
  | accountRegistered (accountId : AccountId) (email : Email) (username : Username)
  | accountAlreadyExists (email : Option Email) (username : Option Username) (reason : String)
  | accountFollowed (followerId : AccountId) (followeeId : AccountId)
  | followRejectedBlocked (followerId : AccountId) (followeeId : AccountId) (reason : String)
  | accountBlocked (blockerId : AccountId) (blockedId : AccountId)
  | followerRemoved (followerId : AccountId) (followeeId : AccountId) (reason : String)
deriving DecidableEq

inductive Cmd where
  | registerAccount (email : Email) (username : Username)
  | followAccount (followerId : AccountId) (followeeId : AccountId)
  | blockAccount (blockerId : AccountId) (blockedId : AccountId)
  | removeFollower (followerId : AccountId) (followeeId : AccountId)
deriving DecidableEq

/-- The concrete command kind, matching type(cmd) used as handler key. -/
inductive CmdKind where
  | registerAccount
  | followAccount
  | blockAccount
  | removeFollower
deriving DecidableEq

def kindOf : Cmd → CmdKind
  | .registerAccount .. => .registerAccount
  | .followAccount .. => .followAccount
  | .blockAccount .. => .blockAccount
  | .removeFollower .. => .removeFollower

/-- Python type(cmd).__name__, used in the unhandled-command error. -/
def cmdTypeName : Cmd → String
  | .registerAccount .. => "RegisterAccount"
  | .followAccount .. => "FollowAccount"
  | .blockAccount .. => "BlockAccount"
  | .removeFollower .. => "RemoveFollower"

/-! ## Account aggregate -/

structure Account where
  id : AccountId
  email : Email
  username : Username
  blocked : List AccountId
deriving DecidableEq

/-- Account.block: add the other id to the blocked set when absent, and
return an AccountBlocked fact unconditionally (the mutated aggregate is
returned explicitly in place of Python in-place mutation). -/
def Account.block (a : Account) (other : AccountId) : Account × Event :=
  if other ∈ a.blocked then (a, Event.accountBlocked a.id other)
  else ({ a with blocked := a.blocked ++ [other] }, Event.accountBlocked a.id other)

/-! ## Repositories (in-memory implementations) -/

structure AccountRepo where
  by_id : List (String × Account)
  by_email : List (String × String)
  by_username : List (String × String)
deriving DecidableEq

def AccountRepo.get (r : AccountRepo) (accountId : AccountId) : Option Account :=
  dictGet r.by_id accountId.value

/-- InMemoryAccountRepo.get_by_email; the source guards the second lookup
with Python truthiness of the id string. -/
def AccountRepo.get_by_email (r : AccountRepo) (email : Email) : Option Account :=
  match dictGet r.by_email email.value with
  | some aid => if aid = "" then none else dictGet r.by_id aid
  | none => none

def AccountRepo.get_by_username (r : AccountRepo) (username : Username) : Option Account :=
  match dictGet r.by_username username.value with
  | some aid => if aid = "" then none else dictGet r.by_id aid
  | none => none

def AccountRepo.save (r : AccountRepo) (account : Account) : AccountRepo :=
  { by_id := dictSet r.by_id account.id.value account
    by_email := dictSet r.by_email account.email.value account.id.value
    by_username := dictSet r.by_username account.username.value account.id.value }

structure FollowRepo where
  following : List (String × List String)
  followers : List (String × List String)
deriving DecidableEq

/-- InMemoryFollowRepo.exists (named existsEdge here because of the Lean
keyword): membership of the followee in the follower's following set. -/
def FollowRepo.existsEdge (r : FollowRepo) (follower followee : AccountId) : Bool :=
  decide (followee.value ∈ ddGet r.following follower.value)

def FollowRepo.add (r : FollowRepo) (follower followee : AccountId) : FollowRepo :=
  if r.existsEdge follower followee then r
  else
    { following := ddUpdate r.following follower.value (fun s => setAdd s followee.value)
      followers := ddUpdate r.followers followee.value (fun s => setAdd s follower.value) }

def FollowRepo.remove (r : FollowRepo) (follower followee : AccountId) : FollowRepo :=
  { following := ddUpdate r.following follower.value (fun s => setDiscard s followee.value)
    followers := ddUpdate r.followers followee.value (fun s => setDiscard s follower.value) }

/-! ## Application state

The Application object: both repositories, the projector's read model,
the uuid counter (see mintId), and the trace of all events that have gone
through EventBus.publish, in publication order. -/

structure AppState where
  accounts : AccountRepo
  follows : FollowRepo
  read_followers : List (String × List String)
  read_following : List (String × List String)
  nextId : Nat
  log : List Event
deriving DecidableEq

def initialState : AppState :=
  { accounts := ⟨[], [], []⟩
    follows := ⟨[], []⟩
    read_followers := []
    read_following := []
    nextId := 0
    log := [] }

/-! ## Command handlers -/

/-- Application._handle_register_account. -/
def handleRegisterAccount (s : AppState) (email : Email) (username : Username) :
    AppState × List Event :=
  if (s.accounts.get_by_email email).isSome || (s.accounts.get_by_username username).isSome then
    (s, [Event.accountAlreadyExists (some email) (some username) "Duplicate email or username"])
  else
    let acc : Account := ⟨⟨mintId s.nextId⟩, email, username, []⟩
    ({ s with accounts := s.accounts.save acc, nextId := s.nextId + 1 },
     [Event.accountRegistered acc.id acc.email acc.username])

/-- Application._handle_follow_account. -/
def handleFollowAccount (s : AppState) (followerId followeeId : AccountId) :
    AppState × List Event :=
  if followerId = followeeId then
    (s, [Event.followRejectedBlocked followerId followeeId "Cannot follow self"])
  else
    match s.accounts.get followerId, s.accounts.get followeeId with
    | some follower, some followee =>
        if followeeId ∈ follower.blocked ∨ followerId ∈ followee.blocked then
          (s, [Event.followRejectedBlocked followerId followeeId "Blocked relationship"])
        else if s.follows.existsEdge followerId followeeId then
          (s, [])
        else
          ({ s with follows := s.follows.add followerId followeeId },
           [Event.accountFollowed followerId followeeId])
    | _, _ => (s, [Event.followRejectedBlocked followerId followeeId "Unknown accounts"])

/-- Application._handle_block_account. -/
def handleBlockAccount (s : AppState) (blockerId blockedId : AccountId) :
    AppState × List Event :=
  if blockerId = blockedId then (s, [])
  else
    match s.accounts.get blockerId, s.accounts.get blockedId with
    | some blocker, some _ =>
        let r := blocker.block blockedId
        ({ s with accounts := s.accounts.save r.1 }, [r.2])
    | _, _ => (s, [])

/-- Application._handle_remove_follower. -/
def handleRemoveFollowerCmd (s : AppState) (followerId followeeId : AccountId) :
    AppState × List Event :=
  if s.follows.existsEdge followerId followeeId then
    ({ s with follows := s.follows.remove followerId followeeId },
     [Event.followerRemoved followerId followeeId "Blocked"])
  else (s, [])

/-- The handler selected for each concrete command, i.e. the body run
after the lookup in Application.handle succeeds. -/
def runHandler (s : AppState) : Cmd → AppState × List Event
  | .registerAccount email username => handleRegisterAccount s email username
  | .followAccount follower followee => handleFollowAccount s follower followee
  | .blockAccount blocker blocked => handleBlockAccount s blocker blocked
  | .removeFollower follower followee => handleRemoveFollowerCmd s follower followee

/-! ## Read-model projector -/

/-- Application._project (subscribed to AccountRegistered, AccountFollowed
and FollowerRemoved; the isinstance chain falls through for anything
else). -/
def projectEvent (s : AppState) (ev : Event) : AppState :=
  match ev with
  | .accountRegistered .. => s
  | .accountFollowed follower followee =>
      { s with
        read_following := ddUpdate s.read_following follower.value
          (fun l => setAdd l followee.value)
        read_followers := ddUpdate s.read_followers followee.value
          (fun l => setAdd l follower.value) }
  | .followerRemoved follower followee _ =>
      { s with
        read_following := ddUpdate s.read_following follower.value
          (fun l => setDiscard l followee.value)
        read_followers := ddUpdate s.read_followers followee.value
          (fun l => setDiscard l follower.value) }
  | _ => s

/-! ## Event bus dispatch

The bus subscriptions are fixed at Application.__init__:
AccountBlocked maps to the on_account_blocked policy (which re-enters
Application.handle with a RemoveFollower command), and AccountRegistered,
AccountFollowed and FollowerRemoved map to the projector.  Dispatch is by
exact event kind.  The faithful recursive semantics is handleFuel below,
with fuel bounding the re-entrant policy cascade; handle is the fuel-free
evaluator, proved to agree with handleFuel for every fuel bound of at
least two. -/

/-- EventBus.publish under an arbitrary re-entrant handle implementation
for the policy cascade; the trace records every published event. -/
def publishDispatch (recur : AppState → Cmd → Option (AppState × List Event))
    (s : AppState) (ev : Event) : Option AppState :=
  let s1 := { s with log := s.log ++ [ev] }
  match ev with
  | .accountRegistered .. => some (projectEvent s1 ev)
  | .accountFollowed .. => some (projectEvent s1 ev)
  | .followerRemoved .. => some (projectEvent s1 ev)
  | .accountBlocked blocker blocked =>
      (recur s1 (Cmd.removeFollower blocked blocker)).map Prod.fst
  | .accountAlreadyExists .. => some s1
  | .followRejectedBlocked .. => some s1

/-- Application.handle with explicit fuel for the re-entrant policy
recursion: run the handler, then publish each produced event in order,
then return the handler's events. -/
def handleFuel : Nat → AppState → Cmd → Option (AppState × List Event)
  | 0, _, _ => none
  | n + 1, s, c =>
      let r := runHandler s c
      (r.2.foldlM (fun st ev => publishDispatch (handleFuel n) st ev) r.1).map
        (fun s2 => (s2, r.2))

/-- Publication of an event from inside the policy cascade (the nested
handle call on RemoveFollower): RemoveFollower only ever produces
FollowerRemoved, whose sole subscriber is the projector, so no further
recursion occurs at this depth. -/
def publishNested (s : AppState) (ev : Event) : AppState :=
  let s1 := { s with log := s.log ++ [ev] }
  match ev with
  | .accountRegistered .. => projectEvent s1 ev
  | .accountFollowed .. => projectEvent s1 ev
  | .followerRemoved .. => projectEvent s1 ev
  | _ => s1

/-- The nested Application.handle call issued by the on_account_blocked
policy. -/
def handleCascade (s : AppState) (c : Cmd) : AppState × List Event :=
  let r := runHandler s c
  (r.2.foldl publishNested r.1, r.2)

/-- EventBus.publish at the outer level: an AccountBlocked event runs the
policy, which re-enters handle with RemoveFollower. -/
def publishTop (s : AppState) (ev : Event) : AppState :=
  let s1 := { s with log := s.log ++ [ev] }
  match ev with
  | .accountRegistered .. => projectEvent s1 ev
  | .accountFollowed .. => projectEvent s1 ev
  | .followerRemoved .. => projectEvent s1 ev
  | .accountBlocked blocker blocked =>
      (handleCascade s1 (Cmd.removeFollower blocked blocker)).1
  | _ => s1

/-- Application.handle, fuel-free: run the handler, publish each produced
event in order, return the handler's events to the caller. -/
def handle (s : AppState) (c : Cmd) : AppState × List Event :=
  let r := runHandler s c
  (r.2.foldl publishTop r.1, r.2)

def publishAll (s : AppState) (evs : List Event) : AppState :=
  evs.foldl publishTop s

/-! ## Handler registry (Application.handlers) -/

abbrev HandlerFn := AppState → Cmd → AppState × List Event

/-- The handler registry built by Application._register_handlers, keyed
by concrete command kind.  (Each Python bound method receives only its
own command dataclass; the catch-all arms are unreachable under the
kind-keyed lookup.) -/
def handlersMap : CmdKind → Option HandlerFn
  | .registerAccount => some fun s c =>
      match c with
      | .registerAccount email username => handleRegisterAccount s email username
      | _ => (s, [])
  | .followAccount => some fun s c =>
      match c with
      | .followAccount follower followee => handleFollowAccount s follower followee
      | _ => (s, [])
  | .blockAccount => some fun s c =>
      match c with
      | .blockAccount blocker blocked => handleBlockAccount s blocker blocked
      | _ => (s, [])
  | .removeFollower => some fun s c =>
      match c with
      | .removeFollower follower followee => handleRemoveFollowerCmd s follower followee
      | _ => (s, [])

/-- Application.handle including the registry lookup: with no handler
registered for the command's kind it raises ValueError. -/
def handleLookup (hs : CmdKind → Option HandlerFn) (s : AppState) (c : Cmd) :
    Except String (AppState × List Event) :=
  match hs (kindOf c) with
  | none => .error ("No handler for " ++ cmdTypeName c)
  | some h =>
      let r := h s c
      .ok (publishAll r.1 r.2, r.2)

/-- A full run of the application from a freshly constructed Application
over empty repositories. -/
def run (cmds : List Cmd) : AppState :=
  cmds.foldl (fun s c => (handle s c).1) initialState

/-! ## Lemmas about the dict and set primitives -/

theorem dictGet_dictSet {α : Type} (m : List (String × α)) (k : String) (v : α)
    (x : String) :
    dictGet (dictSet m k v) x = if x = k then some v else dictGet m x := by
  induction m with
  | nil =>
      simp only [dictSet, dictGet]
      by_cases h : x = k
      · simp [h]
      · rw [if_neg (fun hh => h hh.symm), if_neg h]
  | cons p t ih =>
      obtain ⟨k', v'⟩ := p
      simp only [dictSet]
      by_cases h1 : k' = k
      · subst h1
        simp only [if_pos rfl, dictGet]
        by_cases h2 : k' = x
        · subst h2; simp
        · rw [if_neg h2, if_neg (fun hh : x = k' => h2 hh.symm), if_neg h2]
      · rw [if_neg h1]
        simp only [dictGet]
        by_cases h2 : k' = x
        · rw [if_pos h2, if_neg (fun hh : x = k => h1 (h2.trans hh)), if_pos h2]
        · rw [if_neg h2, ih]
          by_cases h3 : x = k
          · simp [h3]
          · simp [h3, h2]

theorem ddGet_ddUpdate (m : List (String × List String)) (k : String)
    (f : List String → List String) (x : String) :
    ddGet (ddUpdate m k f) x = if x = k then f (ddGet m k) else ddGet m x := by
  by_cases h : x = k <;> simp [ddGet, ddUpdate, dictGet_dictSet, h]

theorem mem_setAdd (s : List String) (x y : String) :
    y ∈ setAdd s x ↔ y ∈ s ∨ y = x := by
  by_cases h : x ∈ s
  · simp only [setAdd, if_pos h]
    constructor
    · exact Or.inl
    · rintro (hy | rfl) <;> [exact hy; exact h]
  · simp [setAdd, if_neg h]

theorem mem_setDiscard (s : List String) (x y : String) :
    y ∈ setDiscard s x ↔ y ∈ s ∧ y ≠ x := by
  simp [setDiscard, List.mem_filter]

/-! ## Evaluation lemmas for handle, one per command kind -/

theorem Account.block_snd (a : Account) (other : AccountId) :
    (a.block other).2 = Event.accountBlocked a.id other := by
  unfold Account.block
  split <;> rfl

theorem handle_register_eq (s : AppState) (email : Email) (username : Username) :
    handle s (Cmd.registerAccount email username) =
      if (s.accounts.get_by_email email).isSome || (s.accounts.get_by_username username).isSome then
        ({ s with log := s.log ++
            [Event.accountAlreadyExists (some email) (some username) "Duplicate email or username"] },
         [Event.accountAlreadyExists (some email) (some username) "Duplicate email or username"])
      else
        ({ s with
            accounts := s.accounts.save ⟨⟨mintId s.nextId⟩, email, username, []⟩
            nextId := s.nextId + 1
            log := s.log ++ [Event.accountRegistered ⟨mintId s.nextId⟩ email username] },
         [Event.accountRegistered ⟨mintId s.nextId⟩ email username]) := by
  by_cases h : ((s.accounts.get_by_email email).isSome ||
      (s.accounts.get_by_username username).isSome) = true
  · simp [handle, runHandler, handleRegisterAccount, h, publishTop]
  · simp [handle, runHandler, handleRegisterAccount, h, publishTop, projectEvent]

theorem handle_follow_eq (s : AppState) (f e : AccountId) :
    handle s (Cmd.followAccount f e) =
      if f = e then
        ({ s with log := s.log ++ [Event.followRejectedBlocked f e "Cannot follow self"] },
         [Event.followRejectedBlocked f e "Cannot follow self"])
      else
        match s.accounts.get f, s.accounts.get e with
        | some follower, some followee =>
            if e ∈ follower.blocked ∨ f ∈ followee.blocked then
              ({ s with log := s.log ++
                  [Event.followRejectedBlocked f e "Blocked relationship"] },
               [Event.followRejectedBlocked f e "Blocked relationship"])
            else if s.follows.existsEdge f e then (s, [])
            else
              ({ s with
                  follows := s.follows.add f e
                  read_following := ddUpdate s.read_following f.value
                    (fun l => setAdd l e.value)
                  read_followers := ddUpdate s.read_followers e.value
                    (fun l => setAdd l f.value)
                  log := s.log ++ [Event.accountFollowed f e] },
               [Event.accountFollowed f e])
        | _, _ =>
            ({ s with log := s.log ++ [Event.followRejectedBlocked f e "Unknown accounts"] },
             [Event.followRejectedBlocked f e "Unknown accounts"]) := by
  by_cases h1 : f = e
  · simp [handle, runHandler, handleFollowAccount, h1, publishTop]
  · cases hf : s.accounts.get f with
    | none =>
        simp [handle, runHandler, handleFollowAccount, h1, hf, publishTop]
    | some follower =>
        cases he : s.accounts.get e with
        | none =>
            simp [handle, runHandler, handleFollowAccount, h1, hf, he, publishTop]
        | some followee =>
            by_cases h2 : e ∈ follower.blocked ∨ f ∈ followee.blocked
            · simp [handle, runHandler, handleFollowAccount, h1, hf, he, h2, publishTop]
            · by_cases h3 : s.follows.existsEdge f e = true
              · simp [handle, runHandler, handleFollowAccount, h1, hf, he, h2, h3, publishTop]
              · simp [handle, runHandler, handleFollowAccount, h1, hf, he, h2, h3,
                  publishTop, projectEvent]

theorem handleCascade_remove_eq (s : AppState) (f e : AccountId) :
    handleCascade s (Cmd.removeFollower f e) =
      if s.follows.existsEdge f e then
        ({ s with
            follows := s.follows.remove f e
            read_following := ddUpdate s.read_following f.value
              (fun l => setDiscard l e.value)
            read_followers := ddUpdate s.read_followers e.value
              (fun l => setDiscard l f.value)
            log := s.log ++ [Event.followerRemoved f e "Blocked"] },
         [Event.followerRemoved f e "Blocked"])
      else (s, []) := by
  by_cases h : s.follows.existsEdge f e = true
  · simp [handleCascade, runHandler, handleRemoveFollowerCmd, h, publishNested, projectEvent]
  · simp [handleCascade, runHandler, handleRemoveFollowerCmd, h]

theorem handle_remove_eq (s : AppState) (f e : AccountId) :
    handle s (Cmd.removeFollower f e) = handleCascade s (Cmd.removeFollower f e) := by
  by_cases h : s.follows.existsEdge f e = true
  · simp [handle, handleCascade, runHandler, handleRemoveFollowerCmd, h,
      publishTop, publishNested]
  · simp [handle, handleCascade, runHandler, handleRemoveFollowerCmd, h]

theorem handle_block_eq (s : AppState) (b d : AccountId) :
    handle s (Cmd.blockAccount b d) =
      if b = d then (s, [])
      else
        match s.accounts.get b, s.accounts.get d with
        | some blocker, some _ =>
            ((handleCascade
                { s with
                    accounts := s.accounts.save (blocker.block d).1
                    log := s.log ++ [Event.accountBlocked blocker.id d] }
                (Cmd.removeFollower d blocker.id)).1,
             [Event.accountBlocked blocker.id d])
        | _, _ => (s, []) := by
  by_cases h1 : b = d
  · simp [handle, runHandler, handleBlockAccount, h1]
  · cases hb : s.accounts.get b with
    | none => simp [handle, runHandler, handleBlockAccount, h1, hb]
    | some blocker =>
        cases hd : s.accounts.get d with
        | none => simp [handle, runHandler, handleBlockAccount, h1, hb, hd]
        | some blocked =>
            simp [handle, runHandler, handleBlockAccount, h1, hb, hd,
              Account.block_snd, publishTop]

/-! ## Agreement of the fueled dispatch semantics with handle -/

theorem handleFuel_remove_eq (j : Nat) (s : AppState) (f e : AccountId) :
    handleFuel (j + 1) s (Cmd.removeFollower f e) =
      some (handleCascade s (Cmd.removeFollower f e)) := by
  by_cases h : s.follows.existsEdge f e = true
  · simp [handleFuel, handleCascade, runHandler, handleRemoveFollowerCmd, h,
      publishDispatch, publishNested]
  · simp [handleFuel, handleCascade, runHandler, handleRemoveFollowerCmd, h]

theorem publishDispatch_eq_publishTop (j : Nat) (st : AppState) (ev : Event) :
    publishDispatch (handleFuel (j + 1)) st ev = some (publishTop st ev) := by
  cases ev with
  | accountBlocked blocker blocked =>
      simp [publishDispatch, publishTop, handleFuel_remove_eq]
  | _ => simp [publishDispatch, publishTop]

theorem foldlM_publishDispatch (j : Nat) (evs : List Event) (st : AppState) :
    evs.foldlM (fun st ev => publishDispatch (handleFuel (j + 1)) st ev) st =
      some (evs.foldl publishTop st) := by
  induction evs generalizing st with
  | nil => rfl
  | cons ev evs ih =>
      rw [List.foldlM_cons, publishDispatch_eq_publishTop, List.foldl_cons]
      show List.foldlM (fun st ev => publishDispatch (handleFuel (j + 1)) st ev)
        (publishTop st ev) evs = _
      exact ih _

theorem handleFuel_eq_handle (n : Nat) (s : AppState) (c : Cmd) (h : 2 ≤ n) :
    handleFuel n s c = some (handle s c) := by
  obtain ⟨k, rfl⟩ : ∃ k, n = k + 2 := ⟨n - 2, by omega⟩
  show handleFuel (k + 1 + 1) s c = some (handle s c)
  rw [handleFuel]
  show ((runHandler s c).2.foldlM
      (fun st ev => publishDispatch (handleFuel (k + 1)) st ev) (runHandler s c).1).map
      (fun s2 => (s2, (runHandler s c).2)) = some (handle s c)
  rw [foldlM_publishDispatch k]
  rfl

/-! ## Shared structural lemmas -/

theorem runHandler_length_le_one (s : AppState) (c : Cmd) :
    (runHandler s c).2.length ≤ 1 := by
  cases c <;>
    simp only [runHandler, handleRegisterAccount, handleFollowAccount,
      handleBlockAccount, handleRemoveFollowerCmd] <;>
    (repeat' split) <;> simp

theorem runHandler_log (s : AppState) (c : Cmd) :
    (runHandler s c).1.log = s.log := by
  cases c <;>
    simp only [runHandler, handleRegisterAccount, handleFollowAccount,
      handleBlockAccount, handleRemoveFollowerCmd] <;>
    (repeat' split) <;> rfl

theorem projectEvent_log (s : AppState) (ev : Event) :
    (projectEvent s ev).log = s.log := by
  cases ev <;> rfl

theorem publishTop_log (st : AppState) (ev : Event) :
    ∃ tr, (publishTop st ev).log = st.log ++ (ev :: tr) := by
  cases ev with
  | accountBlocked blocker blocked =>
      rw [publishTop, handleCascade_remove_eq]
      split
      · exact ⟨[Event.followerRemoved blocked blocker "Blocked"], by simp⟩
      · exact ⟨[], by simp⟩
  | _ => exact ⟨[], by simp [publishTop, projectEvent_log]⟩

theorem handle_log_suffix (s : AppState) (c : Cmd) :
    ∃ tr, (handle s c).1.log = s.log ++ tr ∧ (handle s c).2.Sublist tr := by
  have hlen := runHandler_length_le_one s c
  have hlog := runHandler_log s c
  show ∃ tr, ((runHandler s c).2.foldl publishTop (runHandler s c).1).log = s.log ++ tr ∧
    (runHandler s c).2.Sublist tr
  cases hevs : (runHandler s c).2 with
  | nil => exact ⟨[], by simp [hlog], List.Sublist.refl []⟩
  | cons ev tail =>
      have htail : tail = [] := by
        rw [hevs] at hlen
        cases tail with
        | nil => rfl
        | cons x xs =>
            exfalso
            simp [List.length_cons] at hlen
      subst htail
      obtain ⟨tr, htr⟩ := publishTop_log (runHandler s c).1 ev
      refine ⟨ev :: tr, ?_, ?_⟩
      · simp [List.foldl, htr, hlog]
      · exact (List.nil_sublist tr).cons₂ ev

theorem existsEdge_remove_self (r : FollowRepo) (f e : AccountId) :
    (r.remove f e).existsEdge f e = false := by
  simp [FollowRepo.existsEdge, FollowRepo.remove, ddGet_ddUpdate, mem_setDiscard]

theorem AccountId.eq_of_value (a b : AccountId) (h : a.value = b.value) : a = b := by
  cases a; cases b; cases h; rfl

theorem mem_ddUpdate_setAdd (m : List (String × List String)) (k v x y : String) :
    y ∈ ddGet (ddUpdate m k (fun l => setAdd l v)) x ↔
      y ∈ ddGet m x ∨ (x = k ∧ y = v) := by
  rw [ddGet_ddUpdate]
  by_cases hx : x = k
  · subst hx; simp [mem_setAdd]
  · simp [hx]

theorem mem_ddUpdate_setDiscard (m : List (String × List String)) (k v x y : String) :
    y ∈ ddGet (ddUpdate m k (fun l => setDiscard l v)) x ↔
      y ∈ ddGet m x ∧ ¬(x = k ∧ y = v) := by
  rw [ddGet_ddUpdate]
  by_cases hx : x = k
  · subst hx; simp [mem_setDiscard]
  · simp [hx]

theorem mem_following_add (r : FollowRepo) (f e : AccountId) (x y : String) :
    y ∈ ddGet (r.add f e).following x ↔
      y ∈ ddGet r.following x ∨ (x = f.value ∧ y = e.value) := by
  unfold FollowRepo.add
  by_cases h : r.existsEdge f e = true
  · rw [if_pos h]
    have he : e.value ∈ ddGet r.following f.value :=
      of_decide_eq_true h
    constructor
    · exact Or.inl
    · rintro (hy | ⟨rfl, rfl⟩)
      · exact hy
      · exact he
  · rw [if_neg h]
    exact mem_ddUpdate_setAdd r.following f.value e.value x y

theorem mem_following_remove (r : FollowRepo) (f e : AccountId) (x y : String) :
    y ∈ ddGet (r.remove f e).following x ↔
      y ∈ ddGet r.following x ∧ ¬(x = f.value ∧ y = e.value) :=
  mem_ddUpdate_setDiscard r.following f.value e.value x y

theorem mem_followers_remove (r : FollowRepo) (f e : AccountId) (x y : String) :
    y ∈ ddGet (r.remove f e).followers x ↔
      y ∈ ddGet r.followers x ∧ ¬(x = e.value ∧ y = f.value) :=
  mem_ddUpdate_setDiscard r.followers e.value f.value x y

/-! ## The write-time follow invariant (C3, amended) -/

/-- The strengthened inductive invariant behind C3: the follow relation
has no self-loops, no edge survives whose followee's stored account
blocks the follower, and every stored account is keyed by its own id. -/
def InvParts (accounts : AccountRepo) (follows : FollowRepo) : Prop :=
  (∀ f : String, f ∉ ddGet follows.following f) ∧
  (∀ f e : String, e ∈ ddGet follows.following f →
    ∀ acc : Account, dictGet accounts.by_id e = some acc →
      (⟨f⟩ : AccountId) ∉ acc.blocked) ∧
  (∀ k : String, ∀ acc : Account, dictGet accounts.by_id k = some acc →
    acc.id.value = k)

theorem Account.block_id (a : Account) (other : AccountId) :
    (a.block other).1.id = a.id := by
  unfold Account.block; split <;> rfl

theorem Account.block_mem_blocked (a : Account) (other z : AccountId)
    (hz : z ∈ (a.block other).1.blocked) : z ∈ a.blocked ∨ z = other := by
  unfold Account.block at hz
  split at hz
  · exact Or.inl hz
  · simpa using (List.mem_append.mp hz)

theorem invParts_preserved (s : AppState) (c : Cmd)
    (h : InvParts s.accounts s.follows) :
    InvParts (handle s c).1.accounts (handle s c).1.follows := by
  obtain ⟨h1, h2, h3⟩ := h
  cases c with
  | registerAccount email username =>
      rw [handle_register_eq]
      split
      · exact ⟨h1, h2, h3⟩
      · show InvParts (s.accounts.save ⟨⟨mintId s.nextId⟩, email, username, []⟩) s.follows
        refine ⟨h1, ?_, ?_⟩
        · intro f e he acc hacc
          have hacc' : dictGet (dictSet s.accounts.by_id (mintId s.nextId)
              ⟨⟨mintId s.nextId⟩, email, username, []⟩) e = some acc := hacc
          rw [dictGet_dictSet] at hacc'
          by_cases hk : e = mintId s.nextId
          · rw [if_pos hk] at hacc'
            injection hacc' with hx
            subst hx
            simp
          · rw [if_neg hk] at hacc'
            exact h2 f e he acc hacc'
        · intro k acc hacc
          have hacc' : dictGet (dictSet s.accounts.by_id (mintId s.nextId)
              ⟨⟨mintId s.nextId⟩, email, username, []⟩) k = some acc := hacc
          rw [dictGet_dictSet] at hacc'
          by_cases hk : k = mintId s.nextId
          · rw [if_pos hk] at hacc'
            injection hacc' with hx
            subst hx
            exact hk.symm
          · rw [if_neg hk] at hacc'
            exact h3 k acc hacc'
  | followAccount f e =>
      rw [handle_follow_eq]
      by_cases hfe : f = e
      · rw [if_pos hfe]; exact ⟨h1, h2, h3⟩
      · rw [if_neg hfe]
        cases hf : s.accounts.get f with
        | none =>
            cases he : s.accounts.get e with
            | none => exact ⟨h1, h2, h3⟩
            | some followee => exact ⟨h1, h2, h3⟩
        | some follower =>
            cases he : s.accounts.get e with
            | none => exact ⟨h1, h2, h3⟩
            | some followee =>
                dsimp only
                by_cases hbl : e ∈ follower.blocked ∨ f ∈ followee.blocked
                · rw [if_pos hbl]; exact ⟨h1, h2, h3⟩
                · rw [if_neg hbl]
                  by_cases hex : s.follows.existsEdge f e = true
                  · rw [if_pos hex]; exact ⟨h1, h2, h3⟩
                  · rw [if_neg hex]
                    show InvParts s.accounts (s.follows.add f e)
                    refine ⟨?_, ?_, h3⟩
                    · intro x hx
                      rw [mem_following_add] at hx
                      rcases hx with hx | ⟨hx1, hx2⟩
                      · exact h1 x hx
                      · exact hfe (AccountId.eq_of_value f e (hx1 ▸ hx2 ▸ rfl))
                    · intro x y hy acc hacc
                      rw [mem_following_add] at hy
                      rcases hy with hy | ⟨rfl, rfl⟩
                      · exact h2 x y hy acc hacc
                      · have he' : dictGet s.accounts.by_id e.value = some followee := he
                        rw [hacc] at he'
                        injection he' with hfw
                        subst hfw
                        intro hmem
                        apply hbl
                        right
                        have hfv : (⟨f.value⟩ : AccountId) = f :=
                          AccountId.eq_of_value _ _ rfl
                        rwa [hfv] at hmem
  | blockAccount b d =>
      rw [handle_block_eq]
      by_cases hbd : b = d
      · rw [if_pos hbd]; exact ⟨h1, h2, h3⟩
      · rw [if_neg hbd]
        cases hb : s.accounts.get b with
        | none =>
            cases hd : s.accounts.get d with
            | none => exact ⟨h1, h2, h3⟩
            | some blocked => exact ⟨h1, h2, h3⟩
        | some blocker =>
            cases hd : s.accounts.get d with
            | none => exact ⟨h1, h2, h3⟩
            | some blocked =>
                dsimp only
                have hb' : dictGet s.accounts.by_id b.value = some blocker := hb
                have hbid : blocker.id.value = b.value := h3 b.value blocker hb'
                have hkey : (blocker.block d).1.id.value = b.value := by
                  rw [Account.block_id]; exact hbid
                rw [handleCascade_remove_eq]
                by_cases hex : s.follows.existsEdge d blocker.id = true
                · have hex1 : ({ s with
                      accounts := s.accounts.save (blocker.block d).1
                      log := s.log ++ [Event.accountBlocked blocker.id d] } :
                        AppState).follows.existsEdge d blocker.id = true := hex
                  rw [if_pos hex1]
                  show InvParts (s.accounts.save (blocker.block d).1)
                    (s.follows.remove d blocker.id)
                  refine ⟨?_, ?_, ?_⟩
                  · intro x hx
                    rw [mem_following_remove] at hx
                    exact h1 x hx.1
                  · intro x y hy acc hacc
                    rw [mem_following_remove] at hy
                    have hacc' : dictGet (dictSet s.accounts.by_id
                        (blocker.block d).1.id.value (blocker.block d).1) y = some acc := hacc
                    rw [dictGet_dictSet] at hacc'
                    by_cases hk : y = (blocker.block d).1.id.value
                    · rw [if_pos hk] at hacc'
                      injection hacc' with hx
                      subst hx
                      intro hmem
                      have hyv : y = b.value := by rw [hk, hkey]
                      have hold : (⟨x⟩ : AccountId) ∉ blocker.blocked := by
                        apply h2 x y hy.1
                        rw [hyv]; exact hb'
                      rcases Account.block_mem_blocked blocker d _ hmem with hm | hm
                      · exact hold hm
                      · apply hy.2
                        constructor
                        · rw [← hm]
                        · rw [hyv, ← hbid]
                    · rw [if_neg hk] at hacc'
                      exact h2 x y hy.1 acc hacc'
                  · intro k acc hacc
                    have hacc' : dictGet (dictSet s.accounts.by_id
                        (blocker.block d).1.id.value (blocker.block d).1) k = some acc := hacc
                    rw [dictGet_dictSet] at hacc'
                    by_cases hk : k = (blocker.block d).1.id.value
                    · rw [if_pos hk] at hacc'
                      injection hacc' with hx
                      subst hx
                      exact hk.symm
                    · rw [if_neg hk] at hacc'
                      exact h3 k acc hacc'
                · have hex1 : ¬ ({ s with
                      accounts := s.accounts.save (blocker.block d).1
                      log := s.log ++ [Event.accountBlocked blocker.id d] } :
                        AppState).follows.existsEdge d blocker.id = true := hex
                  rw [if_neg hex1]
                  show InvParts (s.accounts.save (blocker.block d).1) s.follows
                  refine ⟨h1, ?_, ?_⟩
                  · intro x y hy acc hacc
                    have hacc' : dictGet (dictSet s.accounts.by_id
                        (blocker.block d).1.id.value (blocker.block d).1) y = some acc := hacc
                    rw [dictGet_dictSet] at hacc'
                    by_cases hk : y = (blocker.block d).1.id.value
                    · rw [if_pos hk] at hacc'
                      injection hacc' with hx
                      subst hx
                      intro hmem
                      have hyv : y = b.value := by rw [hk, hkey]
                      have hold : (⟨x⟩ : AccountId) ∉ blocker.blocked := by
                        apply h2 x y hy
                        rw [hyv]; exact hb'
                      rcases Account.block_mem_blocked blocker d _ hmem with hm | hm
                      · exact hold hm
                      · apply hex
                        have hxd : x = d.value := by rw [← hm]
                        show decide (blocker.id.value ∈ ddGet s.follows.following d.value) = true
                        apply decide_eq_true
                        rw [← hxd, hbid, ← hyv]
                        exact hy
                    · rw [if_neg hk] at hacc'
                      exact h2 x y hy acc hacc'
                  · intro k acc hacc
                    have hacc' : dictGet (dictSet s.accounts.by_id
                        (blocker.block d).1.id.value (blocker.block d).1) k = some acc := hacc
                    rw [dictGet_dictSet] at hacc'
                    by_cases hk : k = (blocker.block d).1.id.value
                    · rw [if_pos hk] at hacc'
                      injection hacc' with hx
                      subst hx
                      exact hk.symm
                    · rw [if_neg hk] at hacc'
                      exact h3 k acc hacc'
  | removeFollower f e =>
      rw [handle_remove_eq, handleCascade_remove_eq]
      by_cases hex : s.follows.existsEdge f e = true
      · rw [if_pos hex]
        show InvParts s.accounts (s.follows.remove f e)
        refine ⟨?_, ?_, h3⟩
        · intro x hx
          rw [mem_following_remove] at hx
          exact h1 x hx.1
        · intro x y hy acc hacc
          rw [mem_following_remove] at hy
          exact h2 x y hy.1 acc hacc
      · rw [if_neg hex]
        exact ⟨h1, h2, h3⟩

theorem invParts_run (cmds : List Cmd) :
    InvParts (run cmds).accounts (run cmds).follows := by
  suffices h : ∀ s : AppState, InvParts s.accounts s.follows →
      InvParts (cmds.foldl (fun s c => (handle s c).1) s).accounts
        (cmds.foldl (fun s c => (handle s c).1) s).follows by
    refine h initialState ⟨?_, ?_, ?_⟩
    · intro f; simp [initialState, ddGet, dictGet]
    · intro f e he; simp [initialState, ddGet, dictGet] at he
    · intro k acc hacc; simp [initialState, dictGet] at hacc
  induction cmds with
  | nil => intro s hs; exact hs
  | cons c cmds ih => intro s hs; exact ih _ (invParts_preserved s c hs)

/-! ## Read-model consistency (C5) -/

theorem mem_followers_add_of_not (r : FollowRepo) (f e : AccountId)
    (h : ¬ r.existsEdge f e = true) (x y : String) :
    y ∈ ddGet (r.add f e).followers x ↔
      y ∈ ddGet r.followers x ∨ (x = e.value ∧ y = f.value) := by
  unfold FollowRepo.add
  rw [if_neg h]
  exact mem_ddUpdate_setAdd r.followers e.value f.value x y

/-- The projector consistency invariant behind C5: the read-model
following and followers sets agree, as sets, with the follow repository's
two indexes. -/
def ReadModelParts (read_following read_followers : List (String × List String))
    (follows : FollowRepo) : Prop :=
  (∀ x y : String, y ∈ ddGet read_following x ↔ y ∈ ddGet follows.following x) ∧
  (∀ x y : String, y ∈ ddGet read_followers x ↔ y ∈ ddGet follows.followers x)

theorem readModel_preserved (s : AppState) (c : Cmd)
    (h : ReadModelParts s.read_following s.read_followers s.follows) :
    ReadModelParts (handle s c).1.read_following (handle s c).1.read_followers
      (handle s c).1.follows := by
  obtain ⟨h1, h2⟩ := h
  cases c with
  | registerAccount email username =>
      rw [handle_register_eq]
      split
      · exact ⟨h1, h2⟩
      · exact ⟨h1, h2⟩
  | followAccount f e =>
      rw [handle_follow_eq]
      by_cases hfe : f = e
      · rw [if_pos hfe]; exact ⟨h1, h2⟩
      · rw [if_neg hfe]
        cases hf : s.accounts.get f with
        | none =>
            cases he : s.accounts.get e with
            | none => exact ⟨h1, h2⟩
            | some followee => exact ⟨h1, h2⟩
        | some follower =>
            cases he : s.accounts.get e with
            | none => exact ⟨h1, h2⟩
            | some followee =>
                dsimp only
                by_cases hbl : e ∈ follower.blocked ∨ f ∈ followee.blocked
                · rw [if_pos hbl]; exact ⟨h1, h2⟩
                · rw [if_neg hbl]
                  by_cases hex : s.follows.existsEdge f e = true
                  · rw [if_pos hex]; exact ⟨h1, h2⟩
                  · rw [if_neg hex]
                    show ReadModelParts
                      (ddUpdate s.read_following f.value fun l => setAdd l e.value)
                      (ddUpdate s.read_followers e.value fun l => setAdd l f.value)
                      (s.follows.add f e)
                    constructor
                    · intro x y
                      rw [mem_ddUpdate_setAdd, mem_following_add, h1 x y]
                    · intro x y
                      rw [mem_ddUpdate_setAdd, mem_followers_add_of_not _ _ _ hex, h2 x y]
  | blockAccount b d =>
      rw [handle_block_eq]
      by_cases hbd : b = d
      · rw [if_pos hbd]; exact ⟨h1, h2⟩
      · rw [if_neg hbd]
        cases hb : s.accounts.get b with
        | none =>
            cases hd : s.accounts.get d with
            | none => exact ⟨h1, h2⟩
            | some blocked => exact ⟨h1, h2⟩
        | some blocker =>
            cases hd : s.accounts.get d with
            | none => exact ⟨h1, h2⟩
            | some blocked =>
                dsimp only
                rw [handleCascade_remove_eq]
                by_cases hex : s.follows.existsEdge d blocker.id = true
                · have hex1 : ({ s with
                      accounts := s.accounts.save (blocker.block d).1
                      log := s.log ++ [Event.accountBlocked blocker.id d] } :
                        AppState).follows.existsEdge d blocker.id = true := hex
                  rw [if_pos hex1]
                  show ReadModelParts
                    (ddUpdate s.read_following d.value
                      fun l => setDiscard l blocker.id.value)
                    (ddUpdate s.read_followers blocker.id.value
                      fun l => setDiscard l d.value)
                    (s.follows.remove d blocker.id)
                  constructor
                  · intro x y
                    rw [mem_ddUpdate_setDiscard, mem_following_remove, h1 x y]
                  · intro x y
                    rw [mem_ddUpdate_setDiscard, mem_followers_remove, h2 x y]
                · have hex1 : ¬ ({ s with
                      accounts := s.accounts.save (blocker.block d).1
                      log := s.log ++ [Event.accountBlocked blocker.id d] } :
                        AppState).follows.existsEdge d blocker.id = true := hex
                  rw [if_neg hex1]
                  exact ⟨h1, h2⟩
  | removeFollower f e =>
      rw [handle_remove_eq, handleCascade_remove_eq]
      by_cases hex : s.follows.existsEdge f e = true
      · rw [if_pos hex]
        show ReadModelParts
          (ddUpdate s.read_following f.value fun l => setDiscard l e.value)
          (ddUpdate s.read_followers e.value fun l => setDiscard l f.value)
          (s.follows.remove f e)
        constructor
        · intro x y
          rw [mem_ddUpdate_setDiscard, mem_following_remove, h1 x y]
        · intro x y
          rw [mem_ddUpdate_setDiscard, mem_followers_remove, h2 x y]
      · rw [if_neg hex]
        exact ⟨h1, h2⟩

theorem readModel_run (cmds : List Cmd) :
    ReadModelParts (run cmds).read_following (run cmds).read_followers
      (run cmds).follows := by
  suffices h : ∀ s : AppState,
      ReadModelParts s.read_following s.read_followers s.follows →
      ReadModelParts (cmds.foldl (fun s c => (handle s c).1) s).read_following
        (cmds.foldl (fun s c => (handle s c).1) s).read_followers
        (cmds.foldl (fun s c => (handle s c).1) s).follows by
    refine h initialState ⟨?_, ?_⟩ <;>
      · intro x y
        simp [initialState, ddGet, dictGet]
  induction cmds with
  | nil => intro s hs; exact hs
  | cons c cmds ih => intro s hs; exact ih _ (readModel_preserved s c hs)

/-! ## Characterization of the value-object validation (C8) -/

/-- Boolean formalization of the claim's wording for the email rule:
local at domain shape with a non-empty local part, exactly one at-sign,
no whitespace anywhere in the string, and a domain containing a dot. -/
def specEmailShape (s : String) : Bool :=
  s.data.all (fun c => !(pyIsSpace c)) &&
  decide (s.data.count '@' = 1) &&
  !(s.data.takeWhile (fun c => !(c = '@'))).isEmpty &&
  decide ('.' ∈ (s.data.dropWhile (fun c => !(c = '@'))).drop 1)

/-- Boolean formalization of the claim's wording for the username rule:
only word characters, length 3 to 32. -/
def specUsernameShape (s : String) : Bool :=
  s.data.all wordChar && 3 ≤ s.data.length && s.data.length ≤ 32

/-- Declarative reading of the email pattern: a nonempty all-okChar local
part, an at-sign, and a domain of okChar characters with a dot that is
neither its first nor its last character. -/
def EmailShapeP (l : List Char) : Prop :=
  ∃ lp d : List Char, l = lp ++ '@' :: d ∧ lp ≠ [] ∧
    (∀ c ∈ lp, okChar c = true) ∧ (∀ c ∈ d, okChar c = true) ∧
    ∃ d1 d2 : List Char, d = d1 ++ '.' :: d2 ∧ d1 ≠ [] ∧ d2 ≠ []

/-- Declarative reading of the username pattern. -/
def UsernameShapeP (l : List Char) : Prop :=
  (∀ c ∈ l, wordChar c = true) ∧ 3 ≤ l.length ∧ l.length ≤ 32

theorem mem_dropLast_iff (c : Char) (l : List Char) :
    c ∈ l.dropLast ↔ ∃ l1 l2 : List Char, l = l1 ++ c :: l2 ∧ l2 ≠ [] := by
  induction l with
  | nil => simp
  | cons a t ih =>
      cases t with
      | nil =>
          simp only [List.dropLast_single, List.not_mem_nil, false_iff]
          rintro ⟨l1, l2, hl, hne⟩
          cases l1 with
          | nil =>
              simp only [List.nil_append] at hl
              injection hl with h1 h2
              exact hne h2.symm
          | cons b l1' =>
              simp only [List.cons_append] at hl
              injection hl with h1 h2
              simp at h2
      | cons b t' =>
          show c ∈ a :: (b :: t').dropLast ↔ _
          rw [List.mem_cons, ih]
          constructor
          · rintro (rfl | ⟨l1, l2, hl, hne⟩)
            · exact ⟨[], b :: t', rfl, List.cons_ne_nil _ _⟩
            · exact ⟨a :: l1, l2, by rw [List.cons_append, hl], hne⟩
          · rintro ⟨l1, l2, hl, hne⟩
            cases l1 with
            | nil =>
                simp only [List.nil_append] at hl
                injection hl with h1 h2
                exact Or.inl h1.symm
            | cons x l1' =>
                simp only [List.cons_append] at hl
                injection hl with h1 h2
                exact Or.inr ⟨l1', l2, h2, hne⟩

theorem interior_dot_iff (d : List Char) :
    '.' ∈ (d.drop 1).dropLast ↔
      ∃ d1 d2 : List Char, d = d1 ++ '.' :: d2 ∧ d1 ≠ [] ∧ d2 ≠ [] := by
  cases d with
  | nil =>
      simp only [List.drop_nil, List.dropLast_nil, List.not_mem_nil, false_iff]
      rintro ⟨d1, d2, hd, hne1, hne2⟩
      cases d1 with
      | nil => exact hne1 rfl
      | cons x d1' => exact List.cons_ne_nil _ _ hd.symm
  | cons a t =>
      show '.' ∈ t.dropLast ↔ _
      rw [mem_dropLast_iff]
      constructor
      · rintro ⟨l1, l2, hl, hne⟩
        exact ⟨a :: l1, l2, by rw [List.cons_append, hl], List.cons_ne_nil _ _, hne⟩
      · rintro ⟨d1, d2, hd, hne1, hne2⟩
        cases d1 with
        | nil => exact absurd rfl hne1
        | cons x d1' =>
            simp only [List.cons_append] at hd
            injection hd with h1 h2
            exact ⟨d1', d2, h2, hne2⟩

theorem takeWhile_append_stop (p : Char → Bool) (l1 : List Char) (c : Char)
    (l2 : List Char) (h1 : ∀ x ∈ l1, p x = true) (hc : p c = false) :
    (l1 ++ c :: l2).takeWhile p = l1 := by
  induction l1 with
  | nil => simp [List.takeWhile_cons, hc]
  | cons a t ih =>
      have ha : p a = true := h1 a (List.mem_cons_self a t)
      rw [List.cons_append, List.takeWhile_cons, ha]
      simp only [if_true]
      rw [ih (fun x hx => h1 x (List.mem_cons_of_mem a hx))]

theorem dropWhile_append_stop (p : Char → Bool) (l1 : List Char) (c : Char)
    (l2 : List Char) (h1 : ∀ x ∈ l1, p x = true) (hc : p c = false) :
    (l1 ++ c :: l2).dropWhile p = c :: l2 := by
  induction l1 with
  | nil => simp [List.dropWhile_cons, hc]
  | cons a t ih =>
      have ha : p a = true := h1 a (List.mem_cons_self a t)
      rw [List.cons_append, List.dropWhile_cons, ha]
      simp only [if_true]
      exact ih (fun x hx => h1 x (List.mem_cons_of_mem a hx))

theorem okChar_at : okChar '@' = false := rfl

theorem emailCore_iff (l : List Char) : emailCore l = true ↔ EmailShapeP l := by
  constructor
  · intro h
    unfold emailCore at h
    cases hrest : l.dropWhile okChar with
    | nil => rw [hrest] at h; exact absurd h (by simp)
    | cons c d =>
        rw [hrest] at h
        simp only [Bool.and_eq_true, decide_eq_true_eq, Bool.not_eq_true',
          List.all_eq_true] at h
        obtain ⟨⟨⟨hc, hlp⟩, hall⟩, hdot⟩ := h
        subst hc
        refine ⟨l.takeWhile okChar, d, ?_, ?_, ?_, ?_, ?_⟩
        · rw [← hrest, List.takeWhile_append_dropWhile]
        · intro hemp
          rw [hemp] at hlp
          exact absurd hlp (by simp)
        · intro x hx
          exact List.mem_takeWhile_imp hx
        · intro x hx
          exact hall x hx
        · exact (interior_dot_iff d).mp hdot
  · rintro ⟨lp, d, rfl, hlp, hlpok, hdok, hsplit⟩
    unfold emailCore
    rw [dropWhile_append_stop okChar lp '@' d hlpok okChar_at]
    rw [takeWhile_append_stop okChar lp '@' d hlpok okChar_at]
    have hne : lp.isEmpty = false := by
      cases lp with
      | nil => exact absurd rfl hlp
      | cons a t => rfl
    simp only [hne, List.all_eq_true, Bool.not_false, Bool.and_eq_true,
      decide_eq_true_eq, Bool.true_and]
    exact ⟨⟨⟨trivial, trivial⟩, hdok⟩, (interior_dot_iff d).mpr hsplit⟩

theorem usernameCore_iff (l : List Char) :
    usernameCore l = true ↔ UsernameShapeP l := by
  unfold usernameCore UsernameShapeP
  simp [List.all_eq_true, and_assoc]

theorem pyFullMatch_iff (core : List Char → Bool) (P : List Char → Prop)
    (hcore : ∀ l, core l = true ↔ P l) (s : String) :
    pyFullMatch core s = true ↔
      P s.data ∨ (s.data.getLast? = some '\n' ∧ P s.data.dropLast) := by
  unfold pyFullMatch
  simp [hcore, decide_eq_true_eq]

theorem mkEmail_isOk (s : String) : (mkEmail s).isOk = emailValid s := by
  unfold mkEmail
  split <;> simp [Except.isOk, Except.toBool, *]

theorem mkUsername_isOk (s : String) : (mkUsername s).isOk = usernameValid s := by
  unfold mkUsername
  split <;> simp [Except.isOk, Except.toBool, *]

/-! ## Concrete scenario shared by witnesses and counterexamples -/

def emailA : Email := ⟨"a@x.com"⟩
def emailB : Email := ⟨"b@x.com"⟩
def userA : Username := ⟨"alice_uk"⟩
def userB : Username := ⟨"bob_uk"⟩
def idA : AccountId := ⟨"uuid-0"⟩
def idB : AccountId := ⟨"uuid-1"⟩

/-- State after registering the two demo accounts and having the first
follow the second. -/
def stateFollow : AppState :=
  run [Cmd.registerAccount emailA userA, Cmd.registerAccount emailB userB,
       Cmd.followAccount idA idB]

def accountA : Account := ⟨idA, emailA, userA, []⟩
def accountB : Account := ⟨idB, emailB, userB, []⟩

/-! ## Claim theorems -/

/-- C9: for every command of any of the four registered kinds, the
command's handler returns an event list of length at most one, and the
events returned by handle are exactly the handler's events, so handle
never directly produces two or more events for a single command. -/
theorem c9_at_most_one_event (s : AppState) (c : Cmd) :
    (runHandler s c).2.length ≤ 1 ∧ (handle s c).2 = (runHandler s c).2 ∧
    (handle s c).2.length ≤ 1 :=
  ⟨runHandler_length_le_one s c, rfl, runHandler_length_le_one s c⟩

/-- C10: handle terminates for every command from every state: the policy
cascade has depth at most one nested handle call, so the faithful fueled
dispatch semantics reaches a fixed point at fuel two — for every fuel
bound of at least two it returns the same result, the one computed by the
fuel-free evaluator handle. -/
theorem c10_handle_terminates (n : Nat) (s : AppState) (c : Cmd) (h : 2 ≤ n) :
    handleFuel n s c = some (handle s c) :=
  handleFuel_eq_handle n s c h

theorem c10_handle_terminates_witness :
    2 ≤ 2 ∧ handleFuel 2 stateFollow (Cmd.blockAccount idB idA) =
      some (handle stateFollow (Cmd.blockAccount idB idA)) :=
  ⟨by decide, c10_handle_terminates 2 stateFollow (Cmd.blockAccount idB idA) (by decide)⟩

/-- C7: Account.block is idempotent: it returns an AccountBlocked fact
unconditionally, a second call returns the same fact and changes no
state, and after the first call the blocked set contains the id exactly
once (sets are modelled as duplicate-free lists, hence the Nodup
hypothesis). -/
theorem c7_block_idempotent (a : Account) (o : AccountId) (h : a.blocked.Nodup) :
    (a.block o).2 = Event.accountBlocked a.id o ∧
    ((a.block o).1.block o).2 = Event.accountBlocked a.id o ∧
    ((a.block o).1.block o).1 = (a.block o).1 ∧
    (a.block o).1.blocked.count o = 1 := by
  by_cases h1 : o ∈ a.blocked
  · refine ⟨?_, ?_, ?_, ?_⟩ <;>
      simp [Account.block, h1, List.count_eq_one_of_mem h h1]
  · have h2 : o ∈ a.blocked ++ [o] := by simp
    refine ⟨?_, ?_, ?_, ?_⟩ <;>
      simp [Account.block, h1, List.count_append,
        List.count_eq_zero_of_not_mem h1]

theorem c7_block_idempotent_witness :
    accountB.blocked.Nodup ∧
    ((accountB.block idA).2 = Event.accountBlocked accountB.id idA ∧
     ((accountB.block idA).1.block idA).2 = Event.accountBlocked accountB.id idA ∧
     ((accountB.block idA).1.block idA).1 = (accountB.block idA).1 ∧
     (accountB.block idA).1.blocked.count idA = 1) :=
  ⟨by decide, c7_block_idempotent accountB idA (by decide)⟩

/-- C6: handle looks up the handler registered for the command's concrete
kind and fails with the unhandled-command error when none is registered;
with the registry built at startup it always finds a handler, publishes
each event the handler produced in the order produced (they appear, in
order, in the trace suffix added by the call), and returns exactly the
handler's event sequence — cascaded policy events reach the trace but
never the returned sequence. -/
theorem c6_handle_dispatch (hs : CmdKind → Option HandlerFn) (s : AppState) (c : Cmd) :
    (handleLookup hs s c =
      match hs (kindOf c) with
      | none => Except.error ("No handler for " ++ cmdTypeName c)
      | some h => Except.ok (publishAll (h s c).1 (h s c).2, (h s c).2)) ∧
    handleLookup handlersMap s c = Except.ok (handle s c) ∧
    (handle s c).2.Sublist ((handle s c).1.log.drop s.log.length) ∧
    (handle stateFollow (Cmd.blockAccount idB idA)).2 =
      [Event.accountBlocked idB idA] ∧
    Event.followerRemoved idA idB "Blocked" ∈
      (handle stateFollow (Cmd.blockAccount idB idA)).1.log := by
  refine ⟨?_, ?_, ?_, by decide, by decide⟩
  · cases hhs : hs (kindOf c) <;> simp [handleLookup, hhs]
  · cases c <;>
      simp [handleLookup, handlersMap, kindOf, handle, publishAll, runHandler]
  · obtain ⟨tr, htr, hsub⟩ := handle_log_suffix s c
    rw [htr, List.drop_left]
    exact hsub

/-- C1 counterexample: the FollowAccount handler rejects a self-follow
with reason "Cannot follow self" (capitalized), not the claimed exact
reason string "cannot follow self". -/
theorem c1_reason_counterexample :
    (handle initialState (Cmd.followAccount ⟨"a"⟩ ⟨"a"⟩)).2 =
      [Event.followRejectedBlocked ⟨"a"⟩ ⟨"a"⟩ "Cannot follow self"] ∧
    (handle initialState (Cmd.followAccount ⟨"a"⟩ ⟨"a"⟩)).2 ≠
      [Event.followRejectedBlocked ⟨"a"⟩ ⟨"a"⟩ "cannot follow self"] := by
  constructor <;> decide

/-- C1 (amended): the FollowAccount handler decides in this order:
self-follow is rejected with reason "Cannot follow self" regardless of
account existence; then a missing follower or followee account is
rejected with reason "Unknown accounts"; then a block in either
direction is rejected with reason "Blocked relationship"; then an
already-existing edge returns the empty event list and leaves all state
unchanged; otherwise the edge is added and exactly one AccountFollowed
event is returned (and published, which also updates the read model). -/
theorem c1_follow_decision_amended (s : AppState) (f e : AccountId) :
    handle s (Cmd.followAccount f e) =
      if f = e then
        ({ s with log := s.log ++ [Event.followRejectedBlocked f e "Cannot follow self"] },
         [Event.followRejectedBlocked f e "Cannot follow self"])
      else
        match s.accounts.get f, s.accounts.get e with
        | some follower, some followee =>
            if e ∈ follower.blocked ∨ f ∈ followee.blocked then
              ({ s with log := s.log ++
                  [Event.followRejectedBlocked f e "Blocked relationship"] },
               [Event.followRejectedBlocked f e "Blocked relationship"])
            else if s.follows.existsEdge f e then (s, [])
            else
              ({ s with
                  follows := s.follows.add f e
                  read_following := ddUpdate s.read_following f.value
                    (fun l => setAdd l e.value)
                  read_followers := ddUpdate s.read_followers e.value
                    (fun l => setAdd l f.value)
                  log := s.log ++ [Event.accountFollowed f e] },
               [Event.accountFollowed f e])
        | _, _ =>
            ({ s with log := s.log ++ [Event.followRejectedBlocked f e "Unknown accounts"] },
             [Event.followRejectedBlocked f e "Unknown accounts"]) :=
  handle_follow_eq s f e

/-- C4 counterexample: the duplicate-registration rejection carries the
reason "Duplicate email or username", not the claimed exact reason
"duplicate". -/
theorem c4_reason_counterexample :
    (handle (handle initialState (Cmd.registerAccount emailA userA)).1
        (Cmd.registerAccount emailA userB)).2 ≠
      [Event.accountAlreadyExists (some emailA) (some userB) "duplicate"] ∧
    (handle (handle initialState (Cmd.registerAccount emailA userA)).1
        (Cmd.registerAccount emailA userB)).2 =
      [Event.accountAlreadyExists (some emailA) (some userB)
        "Duplicate email or username"] := by
  constructor <;> decide

/-- C4 (amended): RegisterAccount returns exactly one AccountAlreadyExists
event with reason "Duplicate email or username" and persists nothing when
some persisted account has the same email or username, and otherwise
mints a fresh AccountId from the id supply, persists the new account and
returns exactly one AccountRegistered event; in particular registering
two accounts with the same email and different usernames yields
AccountAlreadyExists on the second attempt and leaves exactly one account
persisted. -/
theorem c4_register_decision_amended :
    (∀ (s : AppState) (email : Email) (username : Username),
      handle s (Cmd.registerAccount email username) =
        if (s.accounts.get_by_email email).isSome ||
            (s.accounts.get_by_username username).isSome then
          ({ s with log := s.log ++
              [Event.accountAlreadyExists (some email) (some username)
                "Duplicate email or username"] },
           [Event.accountAlreadyExists (some email) (some username)
             "Duplicate email or username"])
        else
          ({ s with
              accounts := s.accounts.save ⟨⟨mintId s.nextId⟩, email, username, []⟩
              nextId := s.nextId + 1
              log := s.log ++ [Event.accountRegistered ⟨mintId s.nextId⟩ email username] },
           [Event.accountRegistered ⟨mintId s.nextId⟩ email username])) ∧
    (handle (handle initialState (Cmd.registerAccount emailA userA)).1
        (Cmd.registerAccount emailA userB)).2 =
      [Event.accountAlreadyExists (some emailA) (some userB)
        "Duplicate email or username"] ∧
    (handle (handle initialState (Cmd.registerAccount emailA userA)).1
        (Cmd.registerAccount emailA userB)).1.accounts.by_id.length = 1 :=
  ⟨handle_register_eq, by decide, by decide⟩

/-- C2: when account a follows account b and both are present, handling
BlockAccount(blocker b, blocked a) removes the a-to-b edge, returns
exactly the AccountBlocked event, and the published trace shows the
FollowerRemoved(a, b) fact was produced by the AccountBlocked policy
re-entrantly during dispatch of that single command, without the caller
submitting RemoveFollower. -/
theorem c2_block_tears_down_follow (s : AppState) (a b : AccountId)
    (accA accB : Account)
    (hne : a ≠ b)
    (ha : s.accounts.get a = some accA)
    (hb : s.accounts.get b = some accB)
    (hid : accB.id = b)
    (hfol : s.follows.existsEdge a b = true) :
    (handle s (Cmd.blockAccount b a)).1.follows.existsEdge a b = false ∧
    (handle s (Cmd.blockAccount b a)).2 = [Event.accountBlocked b a] ∧
    (handle s (Cmd.blockAccount b a)).1.log =
      s.log ++ [Event.accountBlocked b a, Event.followerRemoved a b "Blocked"] := by
  have hba : ¬ b = a := fun hh => hne hh.symm
  rw [handle_block_eq, if_neg hba, hb, ha]
  dsimp only
  rw [hid]
  rw [handleCascade_remove_eq]
  have hfol1 : ({ s with
      accounts := s.accounts.save (accB.block a).1
      log := s.log ++ [Event.accountBlocked b a] } : AppState).follows.existsEdge a b
      = true := hfol
  rw [if_pos hfol1]
  refine ⟨existsEdge_remove_self _ a b, rfl, by simp⟩

/-- C5: after every completed handle call (cascades included) from the
initial state, the projector's read model equals the follow repository's
state as sets: for every account id, the read-model following and
followers sets have exactly the members of the repository's two indexes;
and AccountRegistered events produce no read-model mutation. -/
theorem c5_read_model_consistency :
    (∀ (cmds : List Cmd) (x y : String),
      (y ∈ ddGet (run cmds).read_following x ↔
        y ∈ ddGet (run cmds).follows.following x) ∧
      (y ∈ ddGet (run cmds).read_followers x ↔
        y ∈ ddGet (run cmds).follows.followers x)) ∧
    (∀ (s : AppState) (i : AccountId) (em : Email) (un : Username),
      projectEvent s (Event.accountRegistered i em un) = s) := by
  constructor
  · intro cmds x y
    obtain ⟨h1, h2⟩ := readModel_run cmds
    exact ⟨h1 x y, h2 x y⟩
  · intro s i em un
    rfl

/-- C8 counterexample: the Python dollar anchor also matches just before
a single trailing newline, so Email construction succeeds on a string
containing whitespace and Username construction succeeds on a string with
a character outside the word class and length outside the claimed bound,
refuting the claimed if-and-only-if characterization in both directions
of the conjunction. -/
theorem c8_validation_counterexample :
    (mkEmail "a@b.c\n").isOk = true ∧ specEmailShape "a@b.c\n" = false ∧
    (mkUsername "abc\n").isOk = true ∧ specUsernameShape "abc\n" = false := by
  refine ⟨?_, ?_, ?_, ?_⟩ <;> decide

/-- C8 (amended): Email construction succeeds iff the string, or the
string with a single trailing newline removed, splits as a nonempty local
part free of at-signs and whitespace, an at-sign, and a domain free of
at-signs and whitespace containing a dot that is neither its first nor
its last character; Username construction succeeds iff the string, or the
string with a single trailing newline removed, consists of 3 to 32
characters from the class letters, digits and underscore. -/
theorem c8_validation_amended (s : String) :
    ((mkEmail s).isOk = true ↔
      EmailShapeP s.data ∨
        (s.data.getLast? = some '\n' ∧ EmailShapeP s.data.dropLast)) ∧
    ((mkUsername s).isOk = true ↔
      UsernameShapeP s.data ∨
        (s.data.getLast? = some '\n' ∧ UsernameShapeP s.data.dropLast)) := by
  constructor
  · rw [mkEmail_isOk]
    exact pyFullMatch_iff emailCore EmailShapeP emailCore_iff s
  · rw [mkUsername_isOk]
    exact pyFullMatch_iff usernameCore UsernameShapeP usernameCore_iff s

/-- C3 counterexample: after alice (who follows bob) handles
BlockAccount(blocker alice, blocked bob), the edge alice-to-bob remains
in the follow repository even though alice's account now blocks bob —
the policy only removes the blocked-to-blocker direction, so the claimed
two-sided invariant fails on this reachable state. -/
theorem c3_invariant_counterexample :
    (run [Cmd.registerAccount emailA userA, Cmd.registerAccount emailB userB,
          Cmd.followAccount idA idB,
          Cmd.blockAccount idA idB]).follows.existsEdge idA idB = true ∧
    (run [Cmd.registerAccount emailA userA, Cmd.registerAccount emailB userB,
          Cmd.followAccount idA idB,
          Cmd.blockAccount idA idB]).accounts.get idA =
      some ⟨idA, emailA, userA, [idB]⟩ := by
  constructor <;> decide

/-- C3 (amended): over all states reachable by any command sequence from
the initial empty state, the follow repository never contains a self-loop
edge, and no edge (follower, followee) exists while the followee's
account has the follower's id in its blocked set (the blocked-to-blocker
direction torn down by the AccountBlocked policy; the converse direction
is not maintained by the code). -/
theorem c3_invariant_amended (cmds : List Cmd) :
    (∀ f : AccountId, (run cmds).follows.existsEdge f f = false) ∧
    (∀ f e : AccountId, ∀ acc : Account,
      (run cmds).follows.existsEdge f e = true →
      (run cmds).accounts.get e = some acc →
      f ∉ acc.blocked) := by
  obtain ⟨h1, h2, _⟩ := invParts_run cmds
  constructor
  · intro f
    exact decide_eq_false (h1 f.value)
  · intro f e acc hex hget
    have hmem : e.value ∈ ddGet (run cmds).follows.following f.value :=
      of_decide_eq_true hex
    have hnot := h2 f.value e.value hmem acc hget
    intro hmem2
    apply hnot
    have hf : (⟨f.value⟩ : AccountId) = f := AccountId.eq_of_value _ _ rfl
    rwa [hf]

theorem c3_invariant_amended_witness :
    (run [Cmd.registerAccount emailA userA, Cmd.registerAccount emailB userB,
          Cmd.followAccount idA idB]).follows.existsEdge idA idB = true ∧
    (run [Cmd.registerAccount emailA userA, Cmd.registerAccount emailB userB,
          Cmd.followAccount idA idB]).accounts.get idB = some accountB ∧
    idA ∉ accountB.blocked :=
  ⟨by decide, by decide,
   (c3_invariant_amended
     [Cmd.registerAccount emailA userA, Cmd.registerAccount emailB userB,
      Cmd.followAccount idA idB]).2 idA idB accountB (by decide) (by decide)⟩

theorem c2_block_tears_down_follow_witness :
    idA ≠ idB ∧
    stateFollow.accounts.get idA = some accountA ∧
    stateFollow.accounts.get idB = some accountB ∧
    accountB.id = idB ∧
    stateFollow.follows.existsEdge idA idB = true ∧
    ((handle stateFollow (Cmd.blockAccount idB idA)).1.follows.existsEdge idA idB = false ∧
     (handle stateFollow (Cmd.blockAccount idB idA)).2 = [Event.accountBlocked idB idA] ∧
     (handle stateFollow (Cmd.blockAccount idB idA)).1.log =
       stateFollow.log ++
         [Event.accountBlocked idB idA, Event.followerRemoved idA idB "Blocked"]) :=
  ⟨by decide, by decide, by decide, by decide, by decide,
   c2_block_tears_down_follow stateFollow idA idB accountA accountB
     (by decide) (by decide) (by decide) (by decide) (by decide)⟩

end DDDWorkshop
